import Mathlib

/-!
Verification of the `fastapi_quickstart` data-access layer.

Shallow embedding of:
- `src/fastapi_quickstart/crud/base.py` (class `CRUDBase`: `get`, `get_multi`,
  `count`, `create`, `get_or_create`, `update`, `exists`, `delete`);
- `src/fastapi_quickstart/models/mixins.py` (`SoftDeleteMixin.soft_delete`,
  `SoftDeleteMixin.restore`, field defaults);
- `src/fastapi_quickstart/core/config.py` (`Settings.pool_size`) and
  `src/fastapi_quickstart/core/db.py` (engine pool parameters).

Modelling conventions:
- An entity (a SQLModel row instance) is an association list from attribute
  names to `Value`s; `getattr`/`setattr`/`hasattr` act on that list.
- A table is the list of committed rows in insertion order plus the
  auto-increment counter the storage engine uses for `id` assignment.
- Each CRUD operation is a function from a table to a result together with
  the table afterwards.  Attribute assignments performed on an in-memory
  object become visible in the table only when the operation reaches its
  `commit` (the relational engine is the external substrate: uncommitted
  work is discarded when an operation raises, per the session contract).
- The storage engine's uniqueness enforcement (primary key and `unique=True`
  columns) is modelled by `insertConflict`; a violating commit raises
  `IntegrityError`, which `create` converts to `alreadyExists` after rolling
  back, and which every other operation propagates unmodified
  (`integrityError`).
- Python exceptions are mapped to `CrudError`: `ResourceNotFoundException` ↦
  `notFound`, `ResourceAlreadyExistsException` ↦ `alreadyExists`,
  `ValueError` ↦ `invalidArgument`, the `AttributeError` for an undeclared
  update field ↦ `unknownField`, the `AttributeError` for a model without an
  `id` attribute ↦ `missingId`.
-/

/-- A column value: SQLite/SQLModel scalar values as used by the repository
(integers, strings, booleans, NULL).  Timestamps are represented as integer
instants. -/
inductive Value where
  | int (n : Int)
  | str (s : String)
  | bool (b : Bool)
  | null
deriving DecidableEq, Repr

/-- An entity instance: attribute name ↦ value, in declaration order. -/
abbrev Entity := List (String × Value)

/-- Python `getattr(e, f, None)` restricted to declared attributes: the value
of the first binding of `f`, if any. -/
def getattrE (e : Entity) (f : String) : Option Value :=
  (e.find? (fun p => decide (p.1 = f))).map Prod.snd

/-- Python `hasattr(e, f)`. -/
def hasattrE (e : Entity) (f : String) : Bool :=
  (getattrE e f).isSome

/-- Python `setattr(e, f, v)`: overwrite the binding of `f` when present,
otherwise add it. -/
def setattrE : Entity → String → Value → Entity
  | [], f, v => [(f, v)]
  | p :: rest, f, v => if p.1 = f then (f, v) :: rest else p :: setattrE rest f v

/-- The `id` attribute of a row (`self.model.id`). -/
def idOf (e : Entity) : Option Value :=
  getattrE e "id"

/-- An entity type: its declared fields with their default values (`Value.null`
as the default of `id` stands for Python `None`, i.e. "assigned by the
database at insert"), and the names of its `unique=True` columns. -/
structure Model where
  fields : List (String × Value)
  uniqueFields : List String
deriving DecidableEq, Repr

/-- `hasattr(self.model, "id")`. -/
def Model.hasId (m : Model) : Bool :=
  m.fields.any (fun p => decide (p.1 = "id"))

/-- A table: committed rows in insertion order, plus the auto-increment
counter for integer primary keys. -/
structure Table where
  rows : List Entity
  nextId : Nat
deriving DecidableEq, Repr

/-- The typed failures of the CRUD engine (utils/exceptions.py plus the
`ValueError`/`AttributeError` programmer errors raised by crud/base.py). -/
inductive CrudError where
  | notFound
  | alreadyExists
  | invalidArgument (msg : String)
  | unknownField (f : String)
  | missingId
  | integrityError
deriving DecidableEq, Repr

/-- `filter_by(**filters)`: all equality conditions hold (AND-combined). -/
def matchesFilters (e : Entity) (fs : List (String × Value)) : Bool :=
  fs.all (fun p => decide (getattrE e p.1 = some p.2))

/-- `self.model.model_validate(obj_in)`: build a row carrying exactly the
declared fields, taking each field's value from the input when present and
its declared default otherwise. -/
def modelValidate (m : Model) (objIn : Entity) : Entity :=
  m.fields.map (fun p => (p.1, (getattrE objIn p.1).getD p.2))

/-- The storage engine's auto-increment `id` assignment at flush time: a row
whose `id` is NULL receives the next counter value. -/
def assignRowId (e : Entity) (next : Nat) : Entity × Nat :=
  if getattrE e "id" = some Value.null then
    (setattrE e "id" (Value.int (Int.ofNat next)), next + 1)
  else (e, next)

/-- One `unique=True` column clash between an existing row and a new row
(equal non-NULL values). -/
def uniqueClash (uf : List String) (row r : Entity) : Bool :=
  uf.any (fun f =>
    match getattrE r f with
    | some v => !(decide (v = Value.null)) && decide (getattrE row f = some v)
    | none => false)

/-- Primary-key clash between an existing row and a new row. -/
def pkClash (row r : Entity) : Bool :=
  match idOf r with
  | some v => !(decide (v = Value.null)) && decide (idOf row = some v)
  | none => false

/-- The storage engine reports an integrity violation for committing row `r`
against the committed rows `rows`. -/
def insertConflict (m : Model) (rows : List Entity) (r : Entity) : Bool :=
  rows.any (fun row => pkClash row r || uniqueClash m.uniqueFields row r)

/-- Remove the first row whose `id` is `i` (physical `DELETE` of the fetched
object). -/
def removeFirstById : List Entity → Value → List Entity
  | [], _ => []
  | r :: rest, i => if idOf r = some i then rest else r :: removeFirstById rest i

/-- Replace the first row whose `id` is `i` with `newObj` (the `UPDATE`
issued at commit for the fetched persistent object). -/
def replaceFirstById : List Entity → Value → Entity → List Entity
  | [], _, _ => []
  | r :: rest, i, newObj =>
      if idOf r = some i then newObj :: rest else r :: replaceFirstById rest i newObj

/-- Structural lexicographic order on character lists (by code point). -/
def lexLe : List Char → List Char → Bool
  | [], _ => true
  | _ :: _, [] => false
  | c :: cs, d :: ds =>
      if c.toNat < d.toNat then true
      else if d.toNat < c.toNat then false
      else lexLe cs ds

/-- A total order on `Value`, used to model `ORDER BY id` deterministically
(SQLite's cross-type ordering: NULL, then booleans/numbers, then strings;
integer ids — the only case arising from the mixins — compare numerically). -/
def valLe : Value → Value → Bool
  | .null, _ => true
  | _, .null => false
  | .bool a, .bool b => !a || b
  | .bool _, _ => true
  | _, .bool _ => false
  | .int a, .int b => decide (a ≤ b)
  | .int _, _ => true
  | _, .int _ => false
  | .str a, .str b => lexLe a.data b.data

/-- Row comparison by `id` (`ORDER BY self.model.id`). -/
def rowLe (a b : Entity) : Prop :=
  valLe ((idOf a).getD Value.null) ((idOf b).getD Value.null) = true

instance : DecidableRel rowLe := fun a b => by
  unfold rowLe
  infer_instance

/-- The result sequence of `SELECT ... ORDER BY id` over a table. -/
def sortRows (t : Table) : List Entity :=
  List.insertionSort rowLe t.rows

/-- Ids are pairwise distinct in the table (the spec's identity invariant). -/
def idsNodup (t : Table) : Prop :=
  (t.rows.map idOf).Nodup

instance (t : Table) : Decidable (idsNodup t) := by
  unfold idsNodup
  infer_instance

namespace CRUDBase

/-- `CRUDBase.get` (crud/base.py lines 121-139): check `hasattr(model, "id")`,
select the first row with the given id, raise `ResourceNotFoundException`
when none matches. -/
def get (m : Model) (t : Table) (i : Value) : Except CrudError Entity :=
  if !m.hasId then .error .missingId
  else
    match t.rows.find? (fun r => decide (idOf r = some i)) with
    | none => .error .notFound
    | some r => .ok r

/-- `CRUDBase.get_multi` (crud/base.py lines 141-163): validate `skip`/`limit`,
check the model's id attribute, then `SELECT ... ORDER BY id LIMIT limit
OFFSET skip`. -/
def get_multi (m : Model) (t : Table) (skip limit : Int) : Except CrudError (List Entity) :=
  if skip < 0 then .error (.invalidArgument "skip must be non-negative")
  else if limit ≤ 0 then .error (.invalidArgument "limit must be positive")
  else if !m.hasId then .error .missingId
  else .ok (((sortRows t).drop skip.toNat).take limit.toNat)

/-- `CRUDBase.count` (crud/base.py lines 165-172): `SELECT count(*)`. -/
def count (t : Table) : Nat :=
  t.rows.length

/-- `CRUDBase.create` (crud/base.py lines 174-194): validate the input into a
row, add and commit it (the engine assigns a NULL id from the auto-increment
counter); on `IntegrityError` roll the transaction back and raise
`ResourceAlreadyExistsException`. -/
def create (m : Model) (t : Table) (objIn : Entity) : Except CrudError Entity × Table :=
  let dbObj := modelValidate m objIn
  let flushed := assignRowId dbObj t.nextId
  if insertConflict m t.rows flushed.1 then (.error .alreadyExists, t)
  else (.ok flushed.1, ⟨t.rows ++ [flushed.1], flushed.2⟩)

/-- `CRUDBase.get_or_create` (crud/base.py lines 196-249): require a non-empty
filter set, return the first row matching all filters unmodified when one
exists, otherwise fall through to `create`. -/
def get_or_create (m : Model) (t : Table) (objIn : Entity) (filters : List (String × Value)) :
    Except CrudError (Entity × Bool) × Table :=
  if filters.isEmpty then
    (.error (.invalidArgument "At least one filter must be provided for get_or_create"), t)
  else
    match t.rows.find? (fun r => matchesFilters r filters) with
    | some existing => (.ok (existing, false), t)
    | none =>
        match create m t objIn with
        | (.error e, t2) => (.error e, t2)
        | (.ok dbObj, t2) => (.ok (dbObj, true), t2)

/-- The `for field, value in update_data.items()` loop of `CRUDBase.update`
(crud/base.py lines 271-276): apply each pair with `setattr` when the
attribute exists, raise `AttributeError` at the first undeclared field. -/
def applyUpdateData : Entity → List (String × Value) → Except CrudError Entity
  | e, [] => .ok e
  | e, (f, v) :: rest =>
      if hasattrE e f then applyUpdateData (setattrE e f v) rest
      else .error (.unknownField f)

/-- `CRUDBase.update` (crud/base.py lines 251-281): fetch the target via
`get`, reject an empty update set, apply the update pairs in order onto the
fetched object, then add and commit.  An error raised before the commit
leaves the table as it was; an integrity violation at commit propagates
unconverted. -/
def update (m : Model) (t : Table) (i : Value) (updateData : List (String × Value)) :
    Except CrudError Entity × Table :=
  match get m t i with
  | .error e => (.error e, t)
  | .ok dbObj =>
      if updateData.isEmpty then (.error (.invalidArgument "No data provided for update"), t)
      else
        match applyUpdateData dbObj updateData with
        | .error e => (.error e, t)
        | .ok newObj =>
            if insertConflict m (removeFirstById t.rows i) newObj then
              (.error .integrityError, t)
            else (.ok newObj, ⟨replaceFirstById t.rows i newObj, t.nextId⟩)

/-- `CRUDBase.exists` (crud/base.py lines 283-292): `SELECT count(*)` under
the filters, compared with zero. -/
def existsBy (t : Table) (filters : List (String × Value)) : Bool :=
  decide (t.rows.countP (fun r => matchesFilters r filters) > 0)

/-- `CRUDBase.delete` (crud/base.py lines 294-316): fetch the target via
`get`; when `soft_delete` is set and the object has a `deleted_at` attribute,
stamp `deleted_at` (and `is_deleted` when present) and commit the update;
otherwise physically remove the row and commit.  `now` is the value of
`datetime.now(tz=UTC)`. -/
def delete (m : Model) (t : Table) (i : Value) (softDelete : Bool) (now : Int) :
    Except CrudError Bool × Table :=
  match get m t i with
  | .error e => (.error e, t)
  | .ok dbObj =>
      if softDelete && hasattrE dbObj "deleted_at" then
        let o1 := setattrE dbObj "deleted_at" (Value.int now)
        let o2 := if hasattrE o1 "is_deleted" then setattrE o1 "is_deleted" (Value.bool true) else o1
        (.ok true, ⟨replaceFirstById t.rows i o2, t.nextId⟩)
      else
        (.ok true, ⟨removeFirstById t.rows i, t.nextId⟩)

end CRUDBase

/-- The page a caller observes from one `get_multi` call (empty on a raised
error), used to phrase the concatenation-of-all-pages property. -/
def pageVal (m : Model) (t : Table) (skip limit : Int) : List Entity :=
  match CRUDBase.get_multi m t skip limit with
  | .ok xs => xs
  | .error _ => []

namespace SoftDeleteMixin

/-- `SoftDeleteMixin.soft_delete` (models/mixins.py lines 40-43). -/
def soft_delete (now : Int) (e : Entity) : Entity :=
  setattrE (setattrE e "is_deleted" (Value.bool true)) "deleted_at" (Value.int now)

/-- `SoftDeleteMixin.restore` (models/mixins.py lines 45-48). -/
def restore (e : Entity) : Entity :=
  setattrE (setattrE e "is_deleted" (Value.bool false)) "deleted_at" Value.null

end SoftDeleteMixin

/-- The entity carries both soft-delete fields of `SoftDeleteMixin`. -/
def softCapable (e : Entity) : Bool :=
  hasattrE e "is_deleted" && hasattrE e "deleted_at"

/-- The `is_deleted` flag reads as `true`. -/
def isDeletedB (e : Entity) : Bool :=
  decide (getattrE e "is_deleted" = some (Value.bool true))

/-- The `deleted_at` attribute holds a non-NULL value. -/
def deletedAtSetB (e : Entity) : Bool :=
  match getattrE e "deleted_at" with
  | some v => !(decide (v = Value.null))
  | none => false

/-- The soft-delete invariant: `is_deleted == true` iff `deleted_at` is not
null. -/
def sdInv (e : Entity) : Prop :=
  isDeletedB e = deletedAtSetB e

instance (e : Entity) : Decidable (sdInv e) := by
  unfold sdInv
  infer_instance

/-- `Settings` (core/config.py lines 7-57): the pool-related configuration
fields with their declared defaults. -/
structure Settings where
  DB_POOL_SIZE : Int := 83
  WEB_CONCURRENCY : Int := 9
  MAX_OVERFLOW : Int := 64
deriving DecidableEq, Repr

/-- `Settings.pool_size` (core/config.py lines 52-57):
`max(DB_POOL_SIZE // WEB_CONCURRENCY, 5)` with Python floor division. -/
def Settings.pool_size (s : Settings) : Int :=
  max (Int.fdiv s.DB_POOL_SIZE s.WEB_CONCURRENCY) 5

/-- The `pool_size` keyword that `core/db.py` lines 10-17 pass to
`create_async_engine` for the client/server (postgres) backend: the raw
`settings.DB_POOL_SIZE`. -/
def asyncEnginePoolSize (s : Settings) : Int :=
  s.DB_POOL_SIZE

instance {ε α : Type} [DecidableEq ε] [DecidableEq α] : DecidableEq (Except ε α) := fun x y =>
  match x, y with
  | .ok a, .ok b =>
      if h : a = b then .isTrue (by rw [h]) else .isFalse (by intro hh; cases hh; exact h rfl)
  | .error a, .error b =>
      if h : a = b then .isTrue (by rw [h]) else .isFalse (by intro hh; cases hh; exact h rfl)
  | .ok _, .error _ => .isFalse (by intro hh; cases hh)
  | .error _, .ok _ => .isFalse (by intro hh; cases hh)

/-- A user-like entity type (tests/conftest.py `TestUser`): integer id plus
`name` and a unique `email`. -/
def userModel : Model :=
  ⟨[("id", Value.null), ("name", Value.str ""), ("email", Value.str "")], ["email"]⟩

/-- The same field set with no uniqueness constraint declared. -/
def userModelNoUnique : Model :=
  ⟨[("id", Value.null), ("name", Value.str ""), ("email", Value.str "")], []⟩

/-- A soft-deletable entity type (tests/test_crud.py `TestProduct`):
integer id, `name`, and the `SoftDeleteMixin` fields with their defaults. -/
def productModel : Model :=
  ⟨[("id", Value.null), ("name", Value.str ""),
    ("is_deleted", Value.bool false), ("deleted_at", Value.null)], []⟩

/-- An empty user table. -/
def emptyUserTable : Table := ⟨[], 1⟩

/-- A user table holding one row with id 1. -/
def oneUserTable : Table :=
  ⟨[[("id", Value.int 1), ("name", Value.str "Alice"), ("email", Value.str "a@x")]], 2⟩

/-- A user table holding three rows with ids 1, 2, 3. -/
def threeUserTable : Table :=
  ⟨[[("id", Value.int 1), ("name", Value.str "Alice"), ("email", Value.str "a@x")],
    [("id", Value.int 2), ("name", Value.str "Bob"), ("email", Value.str "b@x")],
    [("id", Value.int 3), ("name", Value.str "Cleo"), ("email", Value.str "c@x")]], 4⟩

/-- A product table holding one soft-deletable row with id 1. -/
def oneProductTable : Table :=
  ⟨[[("id", Value.int 1), ("name", Value.str "Prod"),
     ("is_deleted", Value.bool false), ("deleted_at", Value.null)]], 2⟩

example : CRUDBase.get userModel oneUserTable (Value.int 1) =
    .ok [("id", Value.int 1), ("name", Value.str "Alice"), ("email", Value.str "a@x")] := by
  decide

example : CRUDBase.get userModel oneUserTable (Value.int 9) = .error .notFound := by
  decide

example : (CRUDBase.create userModel oneUserTable
    [("name", Value.str "Bob"), ("email", Value.str "b@x")]).1 =
    .ok [("id", Value.int 2), ("name", Value.str "Bob"), ("email", Value.str "b@x")] := by
  decide

example : (CRUDBase.create userModel oneUserTable
    [("name", Value.str "Eve"), ("email", Value.str "a@x")]) =
    (.error .alreadyExists, oneUserTable) := by
  decide

example : CRUDBase.get_multi userModel threeUserTable 1 1 =
    .ok [[("id", Value.int 2), ("name", Value.str "Bob"), ("email", Value.str "b@x")]] := by
  decide

example : (CRUDBase.update userModel oneUserTable (Value.int 1)
    [("id", Value.int 42)]).2.rows.map idOf = [some (Value.int 42)] := by
  decide

/-! ### Helper lemmas about attributes -/

theorem getattrE_nil (f : String) : getattrE [] f = none := rfl

theorem getattrE_cons (p : String × Value) (l : Entity) (f : String) :
    getattrE (p :: l) f = if p.1 = f then some p.2 else getattrE l f := by
  by_cases h : p.1 = f
  · unfold getattrE
    rw [List.find?_cons_of_pos _ (by simp [h])]
    simp [h]
  · unfold getattrE
    rw [List.find?_cons_of_neg _ (by simp [h])]
    simp [h]

theorem getattr_setattr_same (e : Entity) (f : String) (v : Value) :
    getattrE (setattrE e f v) f = some v := by
  induction e with
  | nil => simp [setattrE, getattrE_cons]
  | cons p rest ih =>
      by_cases h : p.1 = f
      · simp [setattrE, h, getattrE_cons]
      · simp [setattrE, h, getattrE_cons, ih]

theorem getattr_setattr_ne (e : Entity) (f : String) (v : Value) (g : String) (hg : g ≠ f) :
    getattrE (setattrE e f v) g = getattrE e g := by
  have hfg : ¬ f = g := fun h => hg h.symm
  induction e with
  | nil => simp [setattrE, getattrE_cons, hfg]
  | cons p rest ih =>
      by_cases h : p.1 = f
      · simp [setattrE, h, getattrE_cons, hfg]
      · by_cases hpg : p.1 = g
        · simp [setattrE, h, getattrE_cons, hpg, hg]
        · simp [setattrE, h, getattrE_cons, hpg, ih]

theorem hasattr_setattr (e : Entity) (f : String) (v : Value) (g : String) :
    hasattrE (setattrE e f v) g = (hasattrE e g || decide (g = f)) := by
  by_cases hg : g = f
  · subst hg
    unfold hasattrE
    rw [getattr_setattr_same]
    simp
  · unfold hasattrE
    rw [getattr_setattr_ne e f v g hg]
    simp [hg]

theorem idOf_setattr_ne (e : Entity) (f : String) (v : Value) (hf : f ≠ "id") :
    idOf (setattrE e f v) = idOf e :=
  getattr_setattr_ne e f v "id" (Ne.symm hf)

/-! ### Helper lemmas about the update loop -/

theorem applyUpdateData_unknown :
    ∀ (upd : List (String × Value)) (e e2 : Entity),
    (∀ g, hasattrE e2 g = hasattrE e g) →
    (∃ p ∈ upd, hasattrE e p.1 = false) →
    ∃ g, CRUDBase.applyUpdateData e2 upd = .error (.unknownField g) := by
  intro upd
  induction upd with
  | nil =>
      rintro e e2 _ ⟨p, hp, _⟩
      simp at hp
  | cons q rest ih =>
      rintro e e2 hsame ⟨p, hp, hpa⟩
      obtain ⟨f, v⟩ := q
      by_cases hq : hasattrE e2 f = true
      · have hef : hasattrE e f = true := by rw [← hsame]; exact hq
        have hpq : p ∈ rest := by
          rcases List.mem_cons.mp hp with h | h
          · rw [h] at hpa
            simp only at hpa
            rw [hef] at hpa
            cases hpa
          · exact h
        have hsame2 : ∀ g, hasattrE (setattrE e2 f v) g = hasattrE e g := by
          intro g
          rw [hasattr_setattr, hsame g]
          by_cases hg : g = f
          · subst hg
            simp [hef]
          · simp [hg]
        obtain ⟨g, hgr⟩ := ih e (setattrE e2 f v) hsame2 ⟨p, hpq, hpa⟩
        exact ⟨g, by simp [CRUDBase.applyUpdateData, hq, hgr]⟩
      · exact ⟨f, by simp [CRUDBase.applyUpdateData, hq]⟩

theorem applyUpdateData_ok_idOf :
    ∀ (upd : List (String × Value)) (e e2 : Entity),
    (∀ p ∈ upd, p.1 ≠ "id") →
    CRUDBase.applyUpdateData e upd = .ok e2 → idOf e2 = idOf e := by
  intro upd
  induction upd with
  | nil =>
      intro e e2 _ h
      simp [CRUDBase.applyUpdateData] at h
      rw [h]
  | cons q rest ih =>
      intro e e2 hk h
      obtain ⟨f, v⟩ := q
      by_cases hq : hasattrE e f = true
      · simp [CRUDBase.applyUpdateData, hq] at h
        have hrec := ih (setattrE e f v) e2 (fun p hp => hk p (List.mem_cons_of_mem _ hp)) h
        rw [hrec, idOf_setattr_ne e f v (hk (f, v) (List.mem_cons_self _ _))]
      · simp [CRUDBase.applyUpdateData, hq] at h

/-! ### Helper lemmas about row lookup and replacement -/

theorem find?_replaceFirst (rows : List Entity) (i : Value) (newObj : Entity)
    (hnew : idOf newObj = some i) :
    ∀ r, rows.find? (fun s => decide (idOf s = some i)) = some r →
    (replaceFirstById rows i newObj).find? (fun s => decide (idOf s = some i)) = some newObj := by
  induction rows with
  | nil => intro r h; simp at h
  | cons a rest ih =>
      intro r h
      by_cases ha : idOf a = some i
      · simp only [replaceFirstById, if_pos ha]
        rw [List.find?_cons_of_pos _ (by simp [hnew])]
      · simp only [replaceFirstById, if_neg ha]
        rw [List.find?_cons_of_neg _ (by simp [ha])] at h
        rw [List.find?_cons_of_neg _ (by simp [ha])]
        exact ih r h

theorem map_idOf_replaceFirst (rows : List Entity) (i : Value) (newObj : Entity)
    (hnew : idOf newObj = some i) :
    (replaceFirstById rows i newObj).map idOf = rows.map idOf := by
  induction rows with
  | nil => rfl
  | cons a rest ih =>
      by_cases ha : idOf a = some i
      · simp [replaceFirstById, ha, hnew]
      · simp [replaceFirstById, ha, ih]

theorem removeFirst_no_id (rows : List Entity) (i : Value)
    (hnd : (rows.map idOf).Nodup) :
    ∀ r ∈ removeFirstById rows i, idOf r ≠ some i := by
  induction rows with
  | nil => intro r h; simp [removeFirstById] at h
  | cons a rest ih =>
      rw [List.map_cons, List.nodup_cons] at hnd
      intro r hr
      by_cases ha : idOf a = some i
      · simp only [removeFirstById, if_pos ha] at hr
        intro hri
        exact hnd.1 (ha ▸ hri ▸ List.mem_map_of_mem idOf hr)
      · simp only [removeFirstById, if_neg ha] at hr
        rcases List.mem_cons.mp hr with h | h
        · rw [h]; exact ha
        · exact ih hnd.2 r h

theorem nodup_unique_id (rows : List Entity)
    (hnd : (rows.map idOf).Nodup) :
    ∀ r ∈ rows, ∀ e ∈ rows, idOf r = idOf e → r = e := by
  induction rows with
  | nil => intro r h; simp at h
  | cons a rest ih =>
      rw [List.map_cons, List.nodup_cons] at hnd
      intro r hr e he hid
      rcases List.mem_cons.mp hr with h1 | h1 <;> rcases List.mem_cons.mp he with h2 | h2
      · rw [h1, h2]
      · exfalso
        apply hnd.1
        rw [← h1, hid]
        exact List.mem_map_of_mem idOf h2
      · exfalso
        apply hnd.1
        rw [← h2, ← hid]
        exact List.mem_map_of_mem idOf h1
      · exact ih hnd.2 r h1 e h2 hid

theorem get_eq_ok (m : Model) (t : Table) (i : Value) (hm : m.hasId = true) (e : Entity) :
    CRUDBase.get m t i = .ok e ↔
      t.rows.find? (fun r => decide (idOf r = some i)) = some e := by
  unfold CRUDBase.get
  rw [hm]
  cases hf : t.rows.find? (fun r => decide (idOf r = some i)) <;> simp [hf]

theorem get_eq_err (m : Model) (t : Table) (i : Value) (hm : m.hasId = true) :
    CRUDBase.get m t i = .error .notFound ↔
      t.rows.find? (fun r => decide (idOf r = some i)) = none := by
  unfold CRUDBase.get
  rw [hm]
  cases hf : t.rows.find? (fun r => decide (idOf r = some i)) <;> simp [hf]

/-! ### Helper lemmas about the ordering used by ORDER BY id -/

theorem lexLe_trans : ∀ a b c, lexLe a b = true → lexLe b c = true → lexLe a c = true := by
  intro a
  induction a with
  | nil => intro b c _ _; rfl
  | cons x xs ih =>
      intro b c hab hbc
      cases b with
      | nil => simp [lexLe] at hab
      | cons y ys =>
          cases c with
          | nil => simp [lexLe] at hbc
          | cons z zs =>
              simp only [lexLe] at hab hbc ⊢
              by_cases h1 : x.toNat < y.toNat
              · by_cases h2 : y.toNat < z.toNat
                · rw [if_pos (Nat.lt_trans h1 h2)]
                · rw [if_neg h2] at hbc
                  by_cases h3 : z.toNat < y.toNat
                  · rw [if_pos h3] at hbc; simp at hbc
                  · rw [if_pos (by omega : x.toNat < z.toNat)]
              · rw [if_neg h1] at hab
                by_cases h4 : y.toNat < x.toNat
                · rw [if_pos h4] at hab; simp at hab
                · rw [if_neg h4] at hab
                  by_cases h2 : y.toNat < z.toNat
                  · rw [if_pos (by omega : x.toNat < z.toNat)]
                  · rw [if_neg h2] at hbc
                    by_cases h3 : z.toNat < y.toNat
                    · rw [if_pos h3] at hbc; simp at hbc
                    · rw [if_neg h3] at hbc
                      rw [if_neg (by omega : ¬ x.toNat < z.toNat),
                        if_neg (by omega : ¬ z.toNat < x.toNat)]
                      exact ih ys zs hab hbc

theorem lexLe_total : ∀ a b, lexLe a b = true ∨ lexLe b a = true := by
  intro a
  induction a with
  | nil => intro b; left; rfl
  | cons x xs ih =>
      intro b
      cases b with
      | nil => right; rfl
      | cons y ys =>
          simp only [lexLe]
          by_cases h1 : x.toNat < y.toNat
          · left; rw [if_pos h1]
          · by_cases h2 : y.toNat < x.toNat
            · right; rw [if_pos h2]
            · rcases ih ys with h | h
              · left; rw [if_neg h1, if_neg h2]; exact h
              · right; rw [if_neg h2, if_neg h1]; exact h

theorem valLe_trans : ∀ a b c, valLe a b = true → valLe b c = true → valLe a c = true := by
  intro a b c hab hbc
  cases a <;> cases b <;> cases c <;> simp_all [valLe]
  · omega
  · exact lexLe_trans _ _ _ hab hbc
  · rename_i x y z
    revert hab hbc
    cases x <;> cases y <;> cases z <;> decide

theorem valLe_total : ∀ a b, valLe a b = true ∨ valLe b a = true := by
  intro a b
  cases a <;> cases b <;> simp_all [valLe]
  · omega
  · exact lexLe_total _ _
  · rename_i x y
    revert x y
    decide

instance : IsTrans Entity rowLe :=
  ⟨fun _ _ _ hab hbc => valLe_trans _ _ _ hab hbc⟩

instance : IsTotal Entity rowLe :=
  ⟨fun _ _ => valLe_total _ _⟩

theorem sortRows_perm (t : Table) : (sortRows t).Perm t.rows :=
  List.perm_insertionSort rowLe t.rows

theorem sortRows_sorted (t : Table) : List.Pairwise rowLe (sortRows t) :=
  List.sorted_insertionSort rowLe t.rows

theorem sortRows_map_idOf_nodup (t : Table) (hnd : idsNodup t) :
    ((sortRows t).map idOf).Nodup :=
  (((sortRows_perm t).map idOf).nodup_iff).mpr hnd

theorem get_multi_eval (m : Model) (t : Table) (hm : m.hasId = true) (k n : Nat) (hn : 0 < n) :
    CRUDBase.get_multi m t (k : Int) (n : Int) = .ok (((sortRows t).drop k).take n) := by
  unfold CRUDBase.get_multi
  rw [if_neg (by omega : ¬ ((k : Int) < 0)), if_neg (by omega : ¬ ((n : Int) ≤ 0)), hm]
  simp

theorem pageVal_eval (m : Model) (t : Table) (hm : m.hasId = true) (k n : Nat) (hn : 0 < n) :
    pageVal m t (k : Int) (n : Int) = ((sortRows t).drop k).take n := by
  unfold pageVal
  rw [get_multi_eval m t hm k n hn]

/-! ### Claim C1 -/

/-- C1: for every entity stored under `id` and every update input containing a
key that is not an attribute of the entity, `update` fails with an
`UnknownField` error (the `AttributeError` of crud/base.py line 276) and the
committed table is left exactly as it was — no partial application of the
keys preceding the unknown one ever reaches storage, because the error is
raised before the commit. -/
theorem update_unknown_field_fails_and_preserves_table
    (m : Model) (t : Table) (i : Value) (upd : List (String × Value)) (e0 : Entity)
    (hg : CRUDBase.get m t i = .ok e0)
    (hunk : ∃ p ∈ upd, hasattrE e0 p.1 = false) :
    (∃ g, (CRUDBase.update m t i upd).1 = .error (.unknownField g)) ∧
      (CRUDBase.update m t i upd).2 = t := by
  obtain ⟨g, hap⟩ := applyUpdateData_unknown upd e0 e0 (fun _ => rfl) hunk
  have hne : upd.isEmpty = false := by
    obtain ⟨p, hp, _⟩ := hunk
    cases upd
    · simp at hp
    · rfl
  refine ⟨⟨g, ?_⟩, ?_⟩ <;> simp [CRUDBase.update, hg, hne, hap]

/-- Witness for C1 at a concrete table: a one-row user table, an update
carrying a declared key followed by an undeclared one. -/
theorem update_unknown_field_witness :
    (CRUDBase.get userModel oneUserTable (Value.int 1) =
      .ok [("id", Value.int 1), ("name", Value.str "Alice"), ("email", Value.str "a@x")]) ∧
    (∃ p ∈ [("name", Value.str "B"), ("bogus", Value.int 7)],
      hasattrE [("id", Value.int 1), ("name", Value.str "Alice"), ("email", Value.str "a@x")]
        p.1 = false) ∧
    ((∃ g, (CRUDBase.update userModel oneUserTable (Value.int 1)
        [("name", Value.str "B"), ("bogus", Value.int 7)]).1 = .error (.unknownField g)) ∧
      (CRUDBase.update userModel oneUserTable (Value.int 1)
        [("name", Value.str "B"), ("bogus", Value.int 7)]).2 = oneUserTable) :=
  ⟨by decide, by decide,
    update_unknown_field_fails_and_preserves_table userModel oneUserTable (Value.int 1)
      [("name", Value.str "B"), ("bogus", Value.int 7)]
      [("id", Value.int 1), ("name", Value.str "Alice"), ("email", Value.str "a@x")]
      (by decide) (by decide)⟩

/-! ### Claim C2 -/

/-- C2 counterexample: `update` with a dict input whose keys include `id`
does change the stored identity.  On a table holding the entity created with
id 1, `update(session, 1, {"id": 42})` succeeds, the stored row's id becomes
42, and a later `get` on the id returned by create (1) fails with
`NotFound`. -/
theorem update_dict_id_changes_identity :
    ((CRUDBase.update userModel oneUserTable (Value.int 1) [("id", Value.int 42)]).1 =
      .ok [("id", Value.int 42), ("name", Value.str "Alice"), ("email", Value.str "a@x")]) ∧
    ((CRUDBase.update userModel oneUserTable (Value.int 1)
        [("id", Value.int 42)]).2.rows.map idOf = [some (Value.int 42)]) ∧
    (CRUDBase.get userModel
        (CRUDBase.update userModel oneUserTable (Value.int 1) [("id", Value.int 42)]).2
        (Value.int 1) = .error .notFound) := by
  decide

/-- C2 amended: once assigned, an entity's id is never changed by an `update`
whose input does not contain the key `id` — the id column of every row is
preserved (and hence a later `get` by the created id still finds the entity).
An update whose dict input does contain `id` overwrites the stored id (see
the counterexample). -/
theorem update_without_id_key_preserves_ids
    (m : Model) (t : Table) (i : Value) (upd : List (String × Value))
    (hk : ∀ p ∈ upd, p.1 ≠ "id") :
    (CRUDBase.update m t i upd).2.rows.map idOf = t.rows.map idOf := by
  cases hg : CRUDBase.get m t i with
  | error e => simp [CRUDBase.update, hg]
  | ok dbObj =>
      have hm : m.hasId = true := by
        by_contra hmf
        have hfalse : m.hasId = false := by revert hmf; cases m.hasId <;> simp
        unfold CRUDBase.get at hg
        rw [hfalse] at hg
        simp at hg
      have hidb : idOf dbObj = some i := by
        have hfind := (get_eq_ok m t i hm dbObj).mp hg
        simpa using List.find?_some hfind
      by_cases hemp : upd.isEmpty = true
      · simp [CRUDBase.update, hg, hemp]
      · have hemp2 : upd.isEmpty = false := by revert hemp; cases upd.isEmpty <;> simp
        cases hap : CRUDBase.applyUpdateData dbObj upd with
        | error e => simp [CRUDBase.update, hg, hemp2, hap]
        | ok newObj =>
            have hnew : idOf newObj = some i := by
              rw [applyUpdateData_ok_idOf upd dbObj newObj hk hap, hidb]
            by_cases hconf : insertConflict m (removeFirstById t.rows i) newObj = true
            · simp [CRUDBase.update, hg, hemp2, hap, hconf]
            · have hconf2 : insertConflict m (removeFirstById t.rows i) newObj = false := by
                revert hconf; cases insertConflict m (removeFirstById t.rows i) newObj <;> simp
              simp only [CRUDBase.update, hg, hemp2, Bool.false_eq_true, if_false, hap, hconf2]
              exact map_idOf_replaceFirst t.rows i newObj hnew

/-- Witness for the amended C2 at a concrete table: an id-free update keeps
the id column intact. -/
theorem update_without_id_key_witness :
    (∀ p ∈ [("name", Value.str "B")], Prod.fst p ≠ "id") ∧
    (CRUDBase.update userModel oneUserTable (Value.int 1)
        [("name", Value.str "B")]).2.rows.map idOf = oneUserTable.rows.map idOf :=
  ⟨by decide, update_without_id_key_preserves_ids _ _ _ _ (by decide)⟩

/-! ### Claim C3 -/

/-- C3: `get` is total in its result.  For every id it either returns an
entity of the table whose identity equals the requested id — the unique such
entity when ids are distinct — or fails with `NotFound`; an id matched by no
row (never inserted) always yields `NotFound`, and so does an id that was
just hard-deleted. -/
theorem get_total_contract
    (m : Model) (t : Table) (i : Value) (now : Int) (hm : m.hasId = true) :
    ((∃ e, CRUDBase.get m t i = .ok e ∧ e ∈ t.rows ∧ idOf e = some i ∧
        (idsNodup t → ∀ r ∈ t.rows, idOf r = some i → r = e)) ∨
      (CRUDBase.get m t i = .error .notFound ∧ ∀ r ∈ t.rows, idOf r ≠ some i)) ∧
    ((∀ r ∈ t.rows, idOf r ≠ some i) → CRUDBase.get m t i = .error .notFound) ∧
    (idsNodup t →
      CRUDBase.get m (CRUDBase.delete m t i false now).2 i = .error .notFound) := by
  refine ⟨?_, ?_, ?_⟩
  · cases hf : t.rows.find? (fun r => decide (idOf r = some i)) with
    | some e =>
        left
        refine ⟨e, (get_eq_ok m t i hm e).mpr hf, List.mem_of_find?_eq_some hf, ?_, ?_⟩
        · simpa using List.find?_some hf
        · intro hnd r hr hri
          have hie : idOf e = some i := by simpa using List.find?_some hf
          exact nodup_unique_id t.rows hnd r hr e (List.mem_of_find?_eq_some hf)
            (by rw [hri, hie])
    | none =>
        right
        refine ⟨(get_eq_err m t i hm).mpr hf, ?_⟩
        intro r hr
        simpa using List.find?_eq_none.mp hf r hr
  · intro h
    apply (get_eq_err m t i hm).mpr
    apply List.find?_eq_none.mpr
    intro r hr
    simpa using h r hr
  · intro hnd
    cases hg : CRUDBase.get m t i with
    | error e =>
        have ht2 : (CRUDBase.delete m t i false now).2 = t := by
          simp [CRUDBase.delete, hg]
        rw [ht2]
        cases hf : t.rows.find? (fun r => decide (idOf r = some i)) with
        | some r =>
            have := (get_eq_ok m t i hm r).mpr hf
            rw [this] at hg
            cases hg
        | none => exact (get_eq_err m t i hm).mpr hf
    | ok dbObj =>
        have ht2 : (CRUDBase.delete m t i false now).2 =
            ⟨removeFirstById t.rows i, t.nextId⟩ := by
          simp [CRUDBase.delete, hg]
        rw [ht2]
        apply (get_eq_err m ⟨removeFirstById t.rows i, t.nextId⟩ i hm).mpr
        apply List.find?_eq_none.mpr
        intro r hr
        simpa using removeFirst_no_id t.rows i hnd r hr

/-- Witness for C3 at a concrete table. -/
theorem get_total_contract_witness :
    userModel.hasId = true ∧
    (((∃ e, CRUDBase.get userModel oneUserTable (Value.int 1) = .ok e ∧
        e ∈ oneUserTable.rows ∧ idOf e = some (Value.int 1) ∧
        (idsNodup oneUserTable → ∀ r ∈ oneUserTable.rows, idOf r = some (Value.int 1) → r = e)) ∨
      (CRUDBase.get userModel oneUserTable (Value.int 1) = .error .notFound ∧
        ∀ r ∈ oneUserTable.rows, idOf r ≠ some (Value.int 1))) ∧
    ((∀ r ∈ oneUserTable.rows, idOf r ≠ some (Value.int 1)) →
      CRUDBase.get userModel oneUserTable (Value.int 1) = .error .notFound) ∧
    (idsNodup oneUserTable →
      CRUDBase.get userModel
        (CRUDBase.delete userModel oneUserTable (Value.int 1) false 0).2
        (Value.int 1) = .error .notFound)) :=
  ⟨by decide, get_total_contract userModel oneUserTable (Value.int 1) 0 (by decide)⟩

/-! ### Further helper lemmas -/

theorem mem_replaceFirst (rows : List Entity) (i : Value) (n : Entity) :
    ∀ r ∈ replaceFirstById rows i n, r = n ∨ r ∈ rows := by
  induction rows with
  | nil => intro r h; simp [replaceFirstById] at h
  | cons a rest ih =>
      intro r hr
      by_cases ha : idOf a = some i
      · simp only [replaceFirstById, if_pos ha] at hr
        rcases List.mem_cons.mp hr with h | h
        · left; exact h
        · right; exact List.mem_cons_of_mem _ h
      · simp only [replaceFirstById, if_neg ha] at hr
        rcases List.mem_cons.mp hr with h | h
        · right; rw [h]; exact List.mem_cons_self _ _
        · rcases ih r h with h2 | h2
          · left; exact h2
          · right; exact List.mem_cons_of_mem _ h2

theorem mem_removeFirst (rows : List Entity) (i : Value) :
    ∀ r ∈ removeFirstById rows i, r ∈ rows := by
  induction rows with
  | nil => intro r h; simp [removeFirstById] at h
  | cons a rest ih =>
      intro r hr
      by_cases ha : idOf a = some i
      · simp only [removeFirstById, if_pos ha] at hr
        exact List.mem_cons_of_mem _ hr
      · simp only [removeFirstById, if_neg ha] at hr
        rcases List.mem_cons.mp hr with h | h
        · rw [h]; exact List.mem_cons_self _ _
        · exact List.mem_cons_of_mem _ (ih r h)

theorem get_after_removeFirst (m : Model) (rows : List Entity) (nid : Nat) (i : Value)
    (hm : m.hasId = true) (hnd : (rows.map idOf).Nodup) :
    CRUDBase.get m ⟨removeFirstById rows i, nid⟩ i = .error .notFound := by
  apply (get_eq_err m ⟨removeFirstById rows i, nid⟩ i hm).mpr
  apply List.find?_eq_none.mpr
  intro r hr
  simpa using removeFirst_no_id rows i hnd r hr

theorem getattr_modelValidate (m : Model) (objIn : Entity) (f : String) :
    getattrE (modelValidate m objIn) f =
      (m.fields.find? (fun p => decide (p.1 = f))).map
        (fun p => (getattrE objIn p.1).getD p.2) := by
  unfold modelValidate
  induction m.fields with
  | nil => rfl
  | cons p rest ih =>
      by_cases h : p.1 = f
      · rw [List.map_cons, getattrE_cons, List.find?_cons_of_pos _ (by simp [h])]
        simp [h]
      · rw [List.map_cons, getattrE_cons, List.find?_cons_of_neg _ (by simp [h])]
        simp only [h, if_false]
        exact ih

theorem create_ok_inv (m : Model) (t : Table) (objIn : Entity) (e : Entity) (t2 : Table)
    (h : CRUDBase.create m t objIn = (.ok e, t2)) :
    e = (assignRowId (modelValidate m objIn) t.nextId).1 ∧
      t2 = ⟨t.rows ++ [e], (assignRowId (modelValidate m objIn) t.nextId).2⟩ := by
  unfold CRUDBase.create at h
  by_cases hc : insertConflict m t.rows (assignRowId (modelValidate m objIn) t.nextId).1 = true
  · simp [hc] at h
  · have hc2 : insertConflict m t.rows (assignRowId (modelValidate m objIn) t.nextId).1 = false := by
      revert hc
      cases insertConflict m t.rows (assignRowId (modelValidate m objIn) t.nextId).1 <;> simp
    simp only [hc2, Bool.false_eq_true, if_false, Prod.mk.injEq, Except.ok.injEq] at h
    refine ⟨h.1.symm, ?_⟩
    rw [← h.2, h.1]

theorem goc_created_inv (m : Model) (t : Table) (objIn : Entity)
    (fs : List (String × Value)) (e : Entity) (t2 : Table)
    (h : CRUDBase.get_or_create m t objIn fs = (.ok (e, true), t2)) :
    fs.isEmpty = false ∧
    t.rows.find? (fun r => matchesFilters r fs) = none ∧
    CRUDBase.create m t objIn = (.ok e, t2) := by
  unfold CRUDBase.get_or_create at h
  by_cases hfs : fs.isEmpty = true
  · simp [hfs] at h
  · have hfs2 : fs.isEmpty = false := by revert hfs; cases fs.isEmpty <;> simp
    cases hf : t.rows.find? (fun r => matchesFilters r fs) with
    | some ex => simp [hfs2, hf] at h
    | none =>
        refine ⟨hfs2, rfl, ?_⟩
        rcases hcr : CRUDBase.create m t objIn with ⟨res, tc⟩
        rw [hfs2] at h
        simp only [Bool.false_eq_true, if_false, hf, hcr] at h
        cases res with
        | error er => simp at h
        | ok v =>
            simp only [Prod.mk.injEq, Except.ok.injEq] at h
            rw [h.1.1, h.2]

/-! ### Claim C7 -/

/-- C7: when committing the validated, id-assigned row would violate a
storage uniqueness constraint, `create` rolls the transaction back and fails
with `AlreadyExists`, returning the table exactly as it was — the attempted
row is not visible afterwards. -/
theorem create_integrity_conflict_rolls_back
    (m : Model) (t : Table) (objIn : Entity)
    (hconf : insertConflict m t.rows (assignRowId (modelValidate m objIn) t.nextId).1 = true) :
    CRUDBase.create m t objIn = (.error .alreadyExists, t) := by
  simp [CRUDBase.create, hconf]

/-- Witness for C7: re-creating the already-present unique email fails and
leaves the table unchanged. -/
theorem create_integrity_conflict_witness :
    (insertConflict userModel oneUserTable.rows
      (assignRowId (modelValidate userModel
        [("name", Value.str "Eve"), ("email", Value.str "a@x")]) oneUserTable.nextId).1 = true) ∧
    CRUDBase.create userModel oneUserTable
        [("name", Value.str "Eve"), ("email", Value.str "a@x")] =
      (.error .alreadyExists, oneUserTable) :=
  ⟨by decide, create_integrity_conflict_rolls_back userModel oneUserTable
    [("name", Value.str "Eve"), ("email", Value.str "a@x")] (by decide)⟩

/-! ### Claim C8 -/

/-- C8: the pool-size formula `max(DB_POOL_SIZE // WEB_CONCURRENCY, 5)` is
computed by `Settings.pool_size`, but the Connection Provider (`core/db.py`,
postgres branch) passes the raw `DB_POOL_SIZE` to `create_async_engine`.
With the declared defaults the derived value is `max(83 // 9, 5) = 9` while
the pool size handed to the engine is 83, so the pool size used is not the
derived value. -/
theorem engine_pool_size_ignores_derived_formula :
    Settings.pool_size {} = 9 ∧ asyncEnginePoolSize {} = 83 ∧
      asyncEnginePoolSize {} ≠ Settings.pool_size {} := by
  refine ⟨?_, rfl, ?_⟩ <;> decide

/-! ### Claim C5 -/

/-- C5: on a soft-delete-capable entity stored under `id`, `delete(soft=true)`
succeeds, a subsequent `get` still succeeds and returns the entity with
`is_deleted = true` and a non-null `deleted_at`; a subsequent
`delete(soft=false)` makes `get` fail with `NotFound`; and `delete` with
`soft=true` on an entity lacking the soft-delete fields also removes the row,
so `get` fails with `NotFound` afterwards. -/
theorem soft_then_hard_delete_lifecycle
    (m1 : Model) (t1 : Table) (i1 : Value) (r1 : Entity) (nowA nowB nowC : Int)
    (m2 : Model) (t2 : Table) (i2 : Value) (r2 : Entity)
    (hm1 : m1.hasId = true) (hnd1 : idsNodup t1)
    (hg1 : CRUDBase.get m1 t1 i1 = .ok r1)
    (hda : hasattrE r1 "deleted_at" = true) (hdi : hasattrE r1 "is_deleted" = true)
    (hm2 : m2.hasId = true) (hnd2 : idsNodup t2)
    (hg2 : CRUDBase.get m2 t2 i2 = .ok r2)
    (hnc : hasattrE r2 "deleted_at" = false) :
    ((CRUDBase.delete m1 t1 i1 true nowA).1 = .ok true) ∧
    (∃ e, CRUDBase.get m1 (CRUDBase.delete m1 t1 i1 true nowA).2 i1 = .ok e ∧
      getattrE e "is_deleted" = some (Value.bool true) ∧
      (∃ v, getattrE e "deleted_at" = some v ∧ v ≠ Value.null)) ∧
    (CRUDBase.get m1
      (CRUDBase.delete m1 (CRUDBase.delete m1 t1 i1 true nowA).2 i1 false nowB).2
      i1 = .error .notFound) ∧
    (CRUDBase.get m2 (CRUDBase.delete m2 t2 i2 true nowC).2 i2 = .error .notFound) := by
  have hfind := (get_eq_ok m1 t1 i1 hm1 r1).mp hg1
  have hid1 : idOf r1 = some i1 := by simpa using List.find?_some hfind
  have hdio1 : hasattrE (setattrE r1 "deleted_at" (Value.int nowA)) "is_deleted" = true := by
    rw [hasattr_setattr]
    simp [hdi]
  have hd : CRUDBase.delete m1 t1 i1 true nowA =
      (.ok true,
       ⟨replaceFirstById t1.rows i1
          (setattrE (setattrE r1 "deleted_at" (Value.int nowA)) "is_deleted" (Value.bool true)),
        t1.nextId⟩) := by
    simp [CRUDBase.delete, hg1, hda, hdio1]
  have hido2 : idOf (setattrE (setattrE r1 "deleted_at" (Value.int nowA))
      "is_deleted" (Value.bool true)) = some i1 := by
    rw [idOf_setattr_ne _ _ _ (by decide), idOf_setattr_ne _ _ _ (by decide), hid1]
  have hget2 : CRUDBase.get m1 (CRUDBase.delete m1 t1 i1 true nowA).2 i1 =
      .ok (setattrE (setattrE r1 "deleted_at" (Value.int nowA))
        "is_deleted" (Value.bool true)) := by
    rw [hd]
    exact (get_eq_ok m1 _ i1 hm1 _).mpr (find?_replaceFirst t1.rows i1 _ hido2 r1 hfind)
  refine ⟨by rw [hd], ?_, ?_, ?_⟩
  · refine ⟨_, hget2, getattr_setattr_same _ _ _, Value.int nowA, ?_, by simp⟩
    rw [getattr_setattr_ne _ _ _ _ (by decide)]
    exact getattr_setattr_same _ _ _
  · have hnd1b : ((replaceFirstById t1.rows i1
        (setattrE (setattrE r1 "deleted_at" (Value.int nowA))
          "is_deleted" (Value.bool true))).map idOf).Nodup := by
      rw [map_idOf_replaceFirst _ _ _ hido2]
      exact hnd1
    have hd2 : (CRUDBase.delete m1 (CRUDBase.delete m1 t1 i1 true nowA).2 i1 false nowB).2 =
        ⟨removeFirstById (replaceFirstById t1.rows i1
            (setattrE (setattrE r1 "deleted_at" (Value.int nowA))
              "is_deleted" (Value.bool true))) i1,
          t1.nextId⟩ := by
      rw [hd]
      rw [hd] at hget2
      simp [CRUDBase.delete, hget2]
    rw [hd2]
    exact get_after_removeFirst m1 _ t1.nextId i1 hm1 hnd1b
  · have hd3 : (CRUDBase.delete m2 t2 i2 true nowC).2 =
        ⟨removeFirstById t2.rows i2, t2.nextId⟩ := by
      simp [CRUDBase.delete, hg2, hnc]
    rw [hd3]
    exact get_after_removeFirst m2 t2.rows t2.nextId i2 hm2 hnd2

/-- Witness for C5: the one-row product table (soft-capable) and the one-row
user table (not soft-capable). -/
theorem soft_then_hard_delete_witness :
    (productModel.hasId = true ∧ idsNodup oneProductTable ∧
      CRUDBase.get productModel oneProductTable (Value.int 1) =
        .ok [("id", Value.int 1), ("name", Value.str "Prod"),
          ("is_deleted", Value.bool false), ("deleted_at", Value.null)] ∧
      userModel.hasId = true ∧ idsNodup oneUserTable ∧
      CRUDBase.get userModel oneUserTable (Value.int 1) =
        .ok [("id", Value.int 1), ("name", Value.str "Alice"), ("email", Value.str "a@x")]) ∧
    (((CRUDBase.delete productModel oneProductTable (Value.int 1) true 11).1 = .ok true) ∧
    (∃ e, CRUDBase.get productModel
        (CRUDBase.delete productModel oneProductTable (Value.int 1) true 11).2
        (Value.int 1) = .ok e ∧
      getattrE e "is_deleted" = some (Value.bool true) ∧
      (∃ v, getattrE e "deleted_at" = some v ∧ v ≠ Value.null)) ∧
    (CRUDBase.get productModel
      (CRUDBase.delete productModel
        (CRUDBase.delete productModel oneProductTable (Value.int 1) true 11).2
        (Value.int 1) false 12).2
      (Value.int 1) = .error .notFound) ∧
    (CRUDBase.get userModel
      (CRUDBase.delete userModel oneUserTable (Value.int 1) true 13).2
      (Value.int 1) = .error .notFound)) :=
  ⟨⟨by decide, by decide, by decide, by decide, by decide, by decide⟩,
    soft_then_hard_delete_lifecycle productModel oneProductTable (Value.int 1)
      [("id", Value.int 1), ("name", Value.str "Prod"),
        ("is_deleted", Value.bool false), ("deleted_at", Value.null)]
      11 12 13 userModel oneUserTable (Value.int 1)
      [("id", Value.int 1), ("name", Value.str "Alice"), ("email", Value.str "a@x")]
      (by decide) (by decide) (by decide) (by decide) (by decide)
      (by decide) (by decide) (by decide) (by decide)⟩

/-! ### Claim C9 -/

/-- C9: the soft-delete invariant `is_deleted == true ↔ deleted_at is not
null` holds for a freshly created row when the model declares the mixin's
defaults (`is_deleted = false`, `deleted_at = null`) and the create input
does not set either field; it is established by the mixin's `soft_delete` and
`restore` methods on any entity; and it is preserved across the whole table
by the engine's `delete(session, id, soft=true)`. -/
theorem soft_delete_invariant_maintained
    (m : Model) (objIn : Entity) (k : Nat) (e : Entity) (nowA nowB : Int)
    (t : Table) (i : Value)
    (hd1 : m.fields.find? (fun p => decide (p.1 = "is_deleted")) =
      some ("is_deleted", Value.bool false))
    (hd2 : m.fields.find? (fun p => decide (p.1 = "deleted_at")) =
      some ("deleted_at", Value.null))
    (hno1 : getattrE objIn "is_deleted" = none)
    (hno2 : getattrE objIn "deleted_at" = none)
    (hpre : ∀ r ∈ t.rows, softCapable r = true → sdInv r) :
    sdInv (assignRowId (modelValidate m objIn) k).1 ∧
    sdInv (SoftDeleteMixin.soft_delete nowA e) ∧
    sdInv (SoftDeleteMixin.restore e) ∧
    (∀ r ∈ (CRUDBase.delete m t i true nowB).2.rows, softCapable r = true → sdInv r) := by
  have hvd1 : getattrE (modelValidate m objIn) "is_deleted" = some (Value.bool false) := by
    rw [getattr_modelValidate, hd1]
    simp [hno1]
  have hvd2 : getattrE (modelValidate m objIn) "deleted_at" = some Value.null := by
    rw [getattr_modelValidate, hd2]
    simp [hno2]
  refine ⟨?_, ?_, ?_, ?_⟩
  · unfold assignRowId
    by_cases hid : getattrE (modelValidate m objIn) "id" = some Value.null
    · rw [if_pos hid]
      unfold sdInv isDeletedB deletedAtSetB
      rw [getattr_setattr_ne _ _ _ _ (by decide), getattr_setattr_ne _ _ _ _ (by decide),
        hvd1, hvd2]
      rfl
    · rw [if_neg hid]
      unfold sdInv isDeletedB deletedAtSetB
      rw [hvd1, hvd2]
      rfl
  · unfold SoftDeleteMixin.soft_delete sdInv isDeletedB deletedAtSetB
    rw [getattr_setattr_same, getattr_setattr_ne _ _ _ _ (by decide), getattr_setattr_same]
    simp
  · unfold SoftDeleteMixin.restore sdInv isDeletedB deletedAtSetB
    rw [getattr_setattr_same, getattr_setattr_ne _ _ _ _ (by decide), getattr_setattr_same]
    simp
  · cases hg : CRUDBase.get m t i with
    | error er =>
        have ht2 : (CRUDBase.delete m t i true nowB).2 = t := by
          simp [CRUDBase.delete, hg]
        rw [ht2]
        exact hpre
    | ok dbObj =>
        by_cases hda : hasattrE dbObj "deleted_at" = true
        · by_cases hdi : hasattrE (setattrE dbObj "deleted_at" (Value.int nowB))
              "is_deleted" = true
          · have ht2 : (CRUDBase.delete m t i true nowB).2 =
                ⟨replaceFirstById t.rows i
                  (setattrE (setattrE dbObj "deleted_at" (Value.int nowB))
                    "is_deleted" (Value.bool true)),
                 t.nextId⟩ := by
              simp [CRUDBase.delete, hg, hda, hdi]
            rw [ht2]
            intro r hr hcap
            rcases mem_replaceFirst _ _ _ r hr with h | h
            · rw [h]
              unfold sdInv isDeletedB deletedAtSetB
              rw [getattr_setattr_same,
                getattr_setattr_ne _ _ _ _ (by decide), getattr_setattr_same]
              simp
            · exact hpre r h hcap
          · have ht2 : (CRUDBase.delete m t i true nowB).2 =
                ⟨replaceFirstById t.rows i (setattrE dbObj "deleted_at" (Value.int nowB)),
                 t.nextId⟩ := by
              simp [CRUDBase.delete, hg, hda, hdi]
            rw [ht2]
            intro r hr hcap
            rcases mem_replaceFirst _ _ _ r hr with h | h
            · exfalso
              rw [h] at hcap
              unfold softCapable at hcap
              rw [Bool.and_eq_true] at hcap
              exact hdi hcap.1
            · exact hpre r h hcap
        · have ht2 : (CRUDBase.delete m t i true nowB).2 =
              ⟨removeFirstById t.rows i, t.nextId⟩ := by
            simp [CRUDBase.delete, hg, hda]
          rw [ht2]
          intro r hr hcap
          exact hpre r (mem_removeFirst _ _ r hr) hcap

/-- Witness for C9 on the product model, a violating free-standing entity,
and the one-row product table. -/
theorem soft_delete_invariant_witness :
    (productModel.fields.find? (fun p => decide (p.1 = "is_deleted")) =
      some ("is_deleted", Value.bool false)) ∧
    (productModel.fields.find? (fun p => decide (p.1 = "deleted_at")) =
      some ("deleted_at", Value.null)) ∧
    (getattrE [("name", Value.str "P")] "is_deleted" = none) ∧
    (getattrE [("name", Value.str "P")] "deleted_at" = none) ∧
    (∀ r ∈ oneProductTable.rows, softCapable r = true → sdInv r) ∧
    (sdInv (assignRowId (modelValidate productModel [("name", Value.str "P")]) 5).1 ∧
    sdInv (SoftDeleteMixin.soft_delete 7
      [("is_deleted", Value.bool true), ("deleted_at", Value.null)]) ∧
    sdInv (SoftDeleteMixin.restore
      [("is_deleted", Value.bool true), ("deleted_at", Value.null)]) ∧
    (∀ r ∈ (CRUDBase.delete productModel oneProductTable (Value.int 1) true 9).2.rows,
      softCapable r = true → sdInv r)) :=
  ⟨by decide, by decide, by decide, by decide, by decide,
    soft_delete_invariant_maintained productModel [("name", Value.str "P")] 5
      [("is_deleted", Value.bool true), ("deleted_at", Value.null)] 7 9
      oneProductTable (Value.int 1)
      (by decide) (by decide) (by decide) (by decide) (by decide)⟩

/-! ### Claim C6 -/

/-- C6 counterexample: two sequential `get_or_create` calls with identical
filters need not return `created=false` on the second call.  With filter
`email="a@x"` and an input whose email is `"b@x"`, the entity created by the
first call does not match the filter, so the second call creates again:
both calls return `created=true` (the claim requires the second to return
`created=false`). -/
theorem get_or_create_twice_can_create_twice :
    ((CRUDBase.get_or_create userModelNoUnique emptyUserTable
        [("name", Value.str "n"), ("email", Value.str "b@x")]
        [("email", Value.str "a@x")]).1 =
      .ok ([("id", Value.int 1), ("name", Value.str "n"), ("email", Value.str "b@x")], true)) ∧
    ((CRUDBase.get_or_create userModelNoUnique
        (CRUDBase.get_or_create userModelNoUnique emptyUserTable
          [("name", Value.str "n"), ("email", Value.str "b@x")]
          [("email", Value.str "a@x")]).2
        [("name", Value.str "n"), ("email", Value.str "b@x")]
        [("email", Value.str "a@x")]).1 =
      .ok ([("id", Value.int 2), ("name", Value.str "n"), ("email", Value.str "b@x")], true)) := by
  constructor <;> rfl

/-- C6 amended: when the first `get_or_create` call creates (`created=true`)
and the entity it created matches the filters — which holds exactly when the
create input agrees with the filters on the filter keys — the second call
with identical filters (and any input) returns `created=false` together with
the original entity, unmodified, with its non-filter fields as set by the
first creation.  (See the counterexample for inputs whose created row does
not match the filters.) -/
theorem get_or_create_second_call_found
    (m : Model) (t : Table) (objIn objIn2 : Entity)
    (fs : List (String × Value)) (e1 : Entity) (t1 : Table)
    (h1 : CRUDBase.get_or_create m t objIn fs = (.ok (e1, true), t1))
    (hmatch : matchesFilters e1 fs = true) :
    CRUDBase.get_or_create m t1 objIn2 fs = (.ok (e1, false), t1) := by
  obtain ⟨hfs, hf, hcr⟩ := goc_created_inv m t objIn fs e1 t1 h1
  obtain ⟨_, ht⟩ := create_ok_inv m t objIn e1 t1 hcr
  have hrows : t1.rows = t.rows ++ [e1] := by rw [ht]
  unfold CRUDBase.get_or_create
  rw [hfs]
  simp only [Bool.false_eq_true, if_false]
  rw [hrows, List.find?_append, hf]
  simp [List.find?_cons, hmatch]

/-- Witness for the amended C6: input and filter agree on `email`, so the
second call finds the row created by the first. -/
theorem get_or_create_second_call_witness :
    (CRUDBase.get_or_create userModel emptyUserTable
        [("name", Value.str "n"), ("email", Value.str "a@x")]
        [("email", Value.str "a@x")] =
      (.ok ([("id", Value.int 1), ("name", Value.str "n"), ("email", Value.str "a@x")], true),
        ⟨[[("id", Value.int 1), ("name", Value.str "n"), ("email", Value.str "a@x")]], 2⟩)) ∧
    (matchesFilters [("id", Value.int 1), ("name", Value.str "n"), ("email", Value.str "a@x")]
        [("email", Value.str "a@x")] = true) ∧
    (CRUDBase.get_or_create userModel
        ⟨[[("id", Value.int 1), ("name", Value.str "n"), ("email", Value.str "a@x")]], 2⟩
        [("name", Value.str "z"), ("email", Value.str "a@x")]
        [("email", Value.str "a@x")] =
      (.ok ([("id", Value.int 1), ("name", Value.str "n"), ("email", Value.str "a@x")], false),
        ⟨[[("id", Value.int 1), ("name", Value.str "n"), ("email", Value.str "a@x")]], 2⟩)) :=
  ⟨by decide, by decide,
    get_or_create_second_call_found userModel emptyUserTable
      [("name", Value.str "n"), ("email", Value.str "a@x")]
      [("name", Value.str "z"), ("email", Value.str "a@x")]
      [("email", Value.str "a@x")]
      [("id", Value.int 1), ("name", Value.str "n"), ("email", Value.str "a@x")]
      ⟨[[("id", Value.int 1), ("name", Value.str "n"), ("email", Value.str "a@x")]], 2⟩
      (by decide) (by decide)⟩

/-! ### Claim C10 -/

/-- C10: when `get_or_create` takes its creation path, the created entity is
derived solely from the create input (validated fields plus the storage id
assignment) — the filters are not applied to the new row; consequently, for
some inputs the entity returned with `created=true` does not match the
filters it was looked up by, as the embedded concrete instance shows. -/
theorem get_or_create_creation_ignores_filters
    (m : Model) (t : Table) (objIn : Entity)
    (fs : List (String × Value)) (e : Entity) (t2 : Table)
    (h : CRUDBase.get_or_create m t objIn fs = (.ok (e, true), t2)) :
    e = (assignRowId (modelValidate m objIn) t.nextId).1 ∧
    ((CRUDBase.get_or_create userModelNoUnique emptyUserTable
        [("email", Value.str "b@x")] [("email", Value.str "a@x")]).1 =
      .ok ([("id", Value.int 1), ("name", Value.str ""), ("email", Value.str "b@x")], true) ∧
     matchesFilters [("id", Value.int 1), ("name", Value.str ""), ("email", Value.str "b@x")]
        [("email", Value.str "a@x")] = false) := by
  refine ⟨?_, by decide, by decide⟩
  obtain ⟨_, _, hcr⟩ := goc_created_inv m t objIn fs e t2 h
  exact (create_ok_inv m t objIn e t2 hcr).1

/-- Witness for C10: a creation-path call whose created entity is exactly the
validated input with the assigned id. -/
theorem get_or_create_creation_witness :
    (CRUDBase.get_or_create userModel emptyUserTable
        [("name", Value.str "w")] [("name", Value.str "q")] =
      (.ok ([("id", Value.int 1), ("name", Value.str "w"), ("email", Value.str "")], true),
        ⟨[[("id", Value.int 1), ("name", Value.str "w"), ("email", Value.str "")]], 2⟩)) ∧
    ([("id", Value.int 1), ("name", Value.str "w"), ("email", Value.str "")] =
        (assignRowId (modelValidate userModel [("name", Value.str "w")])
          emptyUserTable.nextId).1 ∧
      ((CRUDBase.get_or_create userModelNoUnique emptyUserTable
          [("email", Value.str "b@x")] [("email", Value.str "a@x")]).1 =
        .ok ([("id", Value.int 1), ("name", Value.str ""), ("email", Value.str "b@x")], true) ∧
       matchesFilters [("id", Value.int 1), ("name", Value.str ""), ("email", Value.str "b@x")]
          [("email", Value.str "a@x")] = false)) :=
  ⟨by decide,
    get_or_create_creation_ignores_filters userModel emptyUserTable
      [("name", Value.str "w")] [("name", Value.str "q")]
      [("id", Value.int 1), ("name", Value.str "w"), ("email", Value.str "")]
      ⟨[[("id", Value.int 1), ("name", Value.str "w"), ("email", Value.str "")]], 2⟩
      (by decide)⟩

/-! ### Claim C4 -/

theorem pages_concat (m : Model) (t : Table) (hm : m.hasId = true) (n : Nat) (hn : 0 < n) :
    ∀ J : Nat, (List.range J).flatMap
        (fun idx => pageVal m t ((idx * n : Nat) : Int) ((n : Nat) : Int)) =
      (sortRows t).take (J * n) := by
  intro J
  induction J with
  | zero => simp
  | succ J ih =>
      rw [List.range_succ, List.flatMap_append, ih]
      simp only [List.flatMap_cons, List.flatMap_nil, List.append_nil]
      rw [pageVal_eval m t hm (J * n) n hn, Nat.succ_mul, List.take_add]

/-- C4 counterexample: on the empty table the claim's reference call
`get_multi(skip=0, limit=total_count)` has `limit = 0` and fails with
`InvalidArgument` instead of returning a sequence, while every page obtained
by stepping through the table is the empty list; so the concatenation of all
pages cannot equal the reference call's result, and the claim fails for that
table state. -/
theorem get_multi_empty_table_reference_fails :
    (CRUDBase.get_multi userModel emptyUserTable 0
        ((CRUDBase.count emptyUserTable : Nat) : Int) =
      .error (.invalidArgument "limit must be positive")) ∧
    ((List.range 4).flatMap
        (fun idx => pageVal userModel emptyUserTable ((idx * 1 : Nat) : Int) ((1 : Nat) : Int))
      = []) := by
  constructor <;> rfl

/-- C4 amended: for every table state with at least one row and every
`k ≥ 0`, `n > 0`, the pages at offsets `k` and `k + n` are returned,
identity-ascending, contiguous (their concatenation is the single page of
size `2n` at offset `k`), and — when ids are pairwise distinct — disjoint;
`get_multi(skip=0, limit=total_count)` returns the whole identity-sorted
sequence, and the concatenation of all pages stepping by `n` (any `J` pages
with `n * J ≥ total_count`) reproduces it exactly.  (`get_multi` reads the
table without mutating it; for the empty table the reference call itself
fails with `InvalidArgument`, see the counterexample.) -/
theorem get_multi_pagination
    (m : Model) (t : Table) (k n J : Nat)
    (hm : m.hasId = true) (hn : 0 < n) (hnd : idsNodup t)
    (hne : t.rows ≠ []) (hJ : t.rows.length ≤ n * J) :
    (∃ p1 p2,
      CRUDBase.get_multi m t (k : Int) (n : Int) = .ok p1 ∧
      CRUDBase.get_multi m t ((k + n : Nat) : Int) (n : Int) = .ok p2 ∧
      CRUDBase.get_multi m t (k : Int) ((2 * n : Nat) : Int) = .ok (p1 ++ p2) ∧
      List.Pairwise rowLe p1 ∧ List.Pairwise rowLe p2 ∧ p1.Disjoint p2) ∧
    CRUDBase.get_multi m t 0 ((CRUDBase.count t : Nat) : Int) = .ok (sortRows t) ∧
    (List.range J).flatMap
        (fun idx => pageVal m t ((idx * n : Nat) : Int) ((n : Nat) : Int)) =
      sortRows t := by
  have e1 := get_multi_eval m t hm k n hn
  have e2 := get_multi_eval m t hm (k + n) n hn
  have e3 := get_multi_eval m t hm k (2 * n) (by omega)
  have hdd : (sortRows t).drop (k + n) = ((sortRows t).drop k).drop n := by
    rw [List.drop_drop]
  refine ⟨⟨_, _, e1, e2, ?_, ?_, ?_, ?_⟩, ?_, ?_⟩
  · rw [e3, hdd, two_mul, List.take_add]
  · exact List.Pairwise.sublist
      ((List.take_sublist _ _).trans (List.drop_sublist _ _)) (sortRows_sorted t)
  · exact List.Pairwise.sublist
      ((List.take_sublist _ _).trans (List.drop_sublist _ _)) (sortRows_sorted t)
  · have hLnd : (sortRows t).Nodup :=
      List.Nodup.of_map idOf (sortRows_map_idOf_nodup t hnd)
    have hM : ((sortRows t).drop k).Nodup := List.Nodup.sublist (List.drop_sublist _ _) hLnd
    have hsplit : (((sortRows t).drop k).take n ++ ((sortRows t).drop k).drop n).Nodup := by
      rw [List.take_append_drop]
      exact hM
    have hdisj : (((sortRows t).drop k).take n).Disjoint (((sortRows t).drop k).drop n) :=
      (List.nodup_append.mp hsplit).2.2
    intro a ha hb
    apply hdisj ha
    rw [hdd] at hb
    exact List.mem_of_mem_take hb
  · have hlen : 0 < t.rows.length := List.length_pos.mpr hne
    have h0 := get_multi_eval m t hm 0 (CRUDBase.count t) hlen
    rw [Nat.cast_zero, List.drop_zero] at h0
    rw [h0]
    have hlen2 : (sortRows t).length = t.rows.length := (sortRows_perm t).length_eq
    rw [show CRUDBase.count t = (sortRows t).length from hlen2.symm, List.take_length]
  · rw [pages_concat m t hm n hn J]
    apply List.take_of_length_le
    rw [(sortRows_perm t).length_eq]
    exact le_of_le_of_eq hJ (Nat.mul_comm n J)

/-- Witness for the amended C4 on the three-row user table with `k = 1`,
`n = 1`, `J = 3`. -/
theorem get_multi_pagination_witness :
    (userModel.hasId = true ∧ 0 < 1 ∧ idsNodup threeUserTable ∧
      threeUserTable.rows ≠ [] ∧ threeUserTable.rows.length ≤ 1 * 3) ∧
    ((∃ p1 p2,
      CRUDBase.get_multi userModel threeUserTable ((1 : Nat) : Int) ((1 : Nat) : Int) = .ok p1 ∧
      CRUDBase.get_multi userModel threeUserTable ((1 + 1 : Nat) : Int) ((1 : Nat) : Int) = .ok p2 ∧
      CRUDBase.get_multi userModel threeUserTable ((1 : Nat) : Int) ((2 * 1 : Nat) : Int) =
        .ok (p1 ++ p2) ∧
      List.Pairwise rowLe p1 ∧ List.Pairwise rowLe p2 ∧ p1.Disjoint p2) ∧
    CRUDBase.get_multi userModel threeUserTable 0
        ((CRUDBase.count threeUserTable : Nat) : Int) = .ok (sortRows threeUserTable) ∧
    (List.range 3).flatMap
        (fun idx => pageVal userModel threeUserTable ((idx * 1 : Nat) : Int) ((1 : Nat) : Int)) =
      sortRows threeUserTable) :=
  ⟨⟨by decide, by decide, by decide, by decide, by decide⟩,
    get_multi_pagination userModel threeUserTable 1 1 3
      (by decide) (by decide) (by decide) (by decide) (by decide)⟩
